import Mathlib

/-!
Verification of the PraBorrow core: the jurisdiction guard (`Sovereign<T>` in
`crates/praborrow-core/src/sovereign.rs`), its lease lifecycle, the lease
authority (`try_hire` in the `DistributedBorrow` impl), and the wait-for-graph
deadlock detector of the `praborrow-lease` crate.

Modelling conventions:
* `Instant` and `Duration` are modelled as `Nat` (the monotonic clock value
  `Instant::now()` is passed in explicitly as `now`).
* `u128` / `u64` values are modelled as `Nat`; the one place where overflow
  matters (the `AtomicU64` id counter in `uuid_pseudo`, which wraps) uses an
  explicit `% 2 ^ 64`.
* A Rust `panic!` observed by the caller is modelled as an `Except.error`
  whose constructor carries exactly the data interpolated into the panic
  message.
* Methods that mutate `&self` through the internal `RwLock` are modelled as
  functions returning the updated state alongside the result.
-/

namespace PraBorrow

/-- Wrap-around modulus of the `AtomicU64` counter inside `uuid_pseudo`. -/
def W : Nat := 2 ^ 64

/-- The `Jurisdiction` enum of `sovereign.rs`: `Domestic`, or
`Foreign { holder, lease_id, epoch, expires_at }`. -/
inductive Jurisdiction where
  | Domestic : Jurisdiction
  | Foreign (holder : Nat) (lease_id : Nat) (epoch : Nat) (expiresAt : Nat) : Jurisdiction
deriving DecidableEq

/-- The observable failure of `ensure_domestic`.  The source panics; each
constructor carries exactly the data interpolated into the corresponding panic
message:
* `"SOVEREIGNTY VIOLATION: Resource leased to Peer {holder} until {expires_at}"`
  carries the holder and the expiry instant;
* `"SOVEREIGNTY VIOLATION: Resource lease expired but not reclaimed."`
  carries nothing. -/
inductive SovereignError where
  | SovereigntyViolation (holder : Nat) (expiresAt : Nat) : SovereignError
  | LeaseExpiredUnreclaimed : SovereignError
deriving DecidableEq

/-- `Sovereign<T>`: the protected value (`UnsafeCell<T>`) plus the jurisdiction
metadata (`RwLock<Jurisdiction>`). -/
structure SovereignS (α : Type) where
  value : α
  meta : Jurisdiction
deriving DecidableEq

/-- `Sovereign::ensure_domestic`: `Ok` on `Domestic`; on `Foreign` it panics —
with the holder and expiry in the message when `now < expires_at`, and with a
bare "expired but not reclaimed" message otherwise. -/
def ensure_domestic (j : Jurisdiction) (now : Nat) : Except SovereignError Unit :=
  match j with
  | .Domestic => .ok ()
  | .Foreign holder _ _ expiresAt =>
    if now < expiresAt then
      .error (.SovereigntyViolation holder expiresAt)
    else
      .error .LeaseExpiredUnreclaimed

/-- `Deref for Sovereign` (a read attempt): runs `ensure_domestic`, then hands
out the protected value.  It takes `&self` and writes nothing, so the state is
returned unchanged on every branch. -/
def read_full {α : Type} (s : SovereignS α) (now : Nat) :
    Except SovereignError α × SovereignS α :=
  match ensure_domestic s.meta now with
  | .ok _ => (.ok s.value, s)
  | .error e => (.error e, s)

/-- `DerefMut for Sovereign` (a write attempt): runs `ensure_domestic`, then
stores `v` through the returned mutable reference.  Only the protected value
changes; the jurisdiction metadata is untouched on every branch. -/
def write_full {α : Type} (s : SovereignS α) (now : Nat) (v : α) :
    Except SovereignError Unit × SovereignS α :=
  match ensure_domestic s.meta now with
  | .ok _ => (.ok (), { s with value := v })
  | .error e => (.error e, s)

/-- `Sovereign::reclaim`: returns `()` (it cannot fail).  `Domestic` stays
`Domestic`; `Foreign` becomes `Domestic` when `now >= expires_at`, and is left
unchanged otherwise (the source's `else` branch is the comment
`// Cannot reclaim yet` and does nothing). -/
def reclaim (j : Jurisdiction) (now : Nat) : Jurisdiction :=
  match j with
  | .Domestic => .Domestic
  | .Foreign holder lease_id epoch expiresAt =>
    if expiresAt ≤ now then .Domestic else .Foreign holder lease_id epoch expiresAt

/-- `Sovereign::grant_lease`.  `c` is the value of the global `AtomicU64`
counter behind `uuid_pseudo`.  From `Domestic` it succeeds with
`lease_id = c` (the fetched counter value), `epoch = 1` (the source's
`Epoch(1) // Placeholder for clock`), `expires_at = now + duration`, moves the
metadata to `Foreign` and advances the counter to `(c + 1) % 2^64`
(`fetch_add` wraps).  From `Foreign` it fails with the source's error string
and changes nothing. -/
def grant_lease (j : Jurisdiction) (c : Nat) (peer : Nat) (duration : Nat) (now : Nat) :
    Except String (Nat × Nat) × Jurisdiction × Nat :=
  match j with
  | .Domestic =>
    (.ok (c, 1), .Foreign peer c 1 (now + duration), (c + 1) % W)
  | .Foreign holder lease_id epoch expiresAt =>
    (.error "Resource already leased", .Foreign holder lease_id epoch expiresAt, c)

/-- The `Lease` struct of `traits.rs` (`lease_id`, `holder`, `duration`; the
`PhantomData` marker carries no data and is omitted).  Note that the struct has
no epoch field. -/
structure Lease where
  lease_id : Nat
  holder : Nat
  duration : Nat
deriving DecidableEq

/-- The `LeaseError` enum of `traits.rs`. -/
inductive LeaseError where
  | AlreadyLeased : LeaseError
  | ResourceLocked : LeaseError
  | SystemFailure : LeaseError
deriving DecidableEq

/-- The success arm of `try_hire` in the source: it receives the pair
`(lease_id, _epoch)` from `grant_lease` and builds
`Lease { lease_id, holder: peer_id, duration, _marker }` — the epoch argument
is bound as `_epoch` and discarded. -/
def mintLease (lease_id : Nat) (_epoch : Nat) (holder : Nat) (duration : Nat) : Lease :=
  { lease_id := lease_id, holder := holder, duration := duration }

/-- `DistributedBorrow::try_hire` for `Sovereign`: calls `grant_lease`; on
success mints a `Lease` from the returned pair, on failure maps any error to
`LeaseError::AlreadyLeased`. -/
def try_hire (j : Jurisdiction) (c : Nat) (peer : Nat) (duration : Nat) (now : Nat) :
    Except LeaseError Lease × Jurisdiction × Nat :=
  match grant_lease j c peer duration now with
  | (.ok (id, eps), j', c') => (.ok (mintLease id eps peer duration), j', c')
  | (.error _, j', c') => (.error .AlreadyLeased, j', c')

/-- The `ReclaimError` named by the spec (no such type exists in the source:
the source's `reclaim` returns `()`). -/
inductive ReclaimError where
  | NotYetExpired : ReclaimError
deriving DecidableEq

/-- Spec-described reclaim, written from the spec's words for comparison with
the source's `reclaim`: "transitions `Foreign -> Domestic` iff
`now >= expires_at`; otherwise fails with `NotYetExpired`. Idempotent no-op on
already-`Domestic`." -/
def reclaim_spec (j : Jurisdiction) (now : Nat) : Except ReclaimError Jurisdiction :=
  match j with
  | .Domestic => .ok .Domestic
  | .Foreign _ _ _ expiresAt =>
    if expiresAt ≤ now then .ok .Domestic
    else .error .NotYetExpired

/-! ### Process traces

`uuid_pseudo`'s counter is a process-wide `static AtomicU64`, shared by every
`Sovereign` guard in the process and starting at `0` when the process starts.
To reason about lease-id uniqueness across successive operations (possibly on
different guards) we run explicit operation traces over a process state. -/

/-- Process-wide state: the `uuid_pseudo` counter and the jurisdiction
metadata of every live guard (indexed by position). -/
structure SysState where
  counter : Nat
  guards : List Jurisdiction
deriving DecidableEq

/-- One operation of a trace: a lease grant, a reclaim, or a read attempt on
the guard at index `idx`, at clock value `now`. -/
inductive Op where
  | grantOp (idx : Nat) (peer : Nat) (dur : Nat) (now : Nat) : Op
  | reclaimOp (idx : Nat) (now : Nat) : Op
  | accessOp (idx : Nat) (now : Nat) : Op
deriving DecidableEq

/-- Execute one operation; the second component is the lease id returned by a
successful `grant_lease`, if any.  A read attempt (`Deref`) never changes any
state; an out-of-range index is a no-op. -/
def stepOp (s : SysState) (op : Op) : SysState × Option Nat :=
  match op with
  | .grantOp i p d t =>
    match s.guards[i]? with
    | some j =>
      match grant_lease j s.counter p d t with
      | (.ok (id, _), j', c') => (⟨c', s.guards.set i j'⟩, some id)
      | (.error _, j', c') => (⟨c', s.guards.set i j'⟩, none)
    | none => (s, none)
  | .reclaimOp i t =>
    match s.guards[i]? with
    | some j => (⟨s.counter, s.guards.set i (reclaim j t)⟩, none)
    | none => (s, none)
  | .accessOp _ _ => (s, none)

/-- The lease ids returned by the successful grants of a trace, in order. -/
def granted_ids (s : SysState) : List Op → List Nat
  | [] => []
  | op :: ops => (stepOp s op).2.toList ++ granted_ids (stepOp s op).1 ops

/-- A trace of `k` grant/reclaim pairs on a single guard, each with duration
`0` at clock `5`, so that every grant succeeds. -/
def pump : Nat → List Op
  | 0 => []
  | k + 1 => Op.grantOp 0 9 0 5 :: Op.reclaimOp 0 5 :: pump k

/-! ### Trace lemmas: the sequence of granted lease ids -/

theorem W_pos : 0 < W := by norm_num [W]

/-- Prepending a freshly granted id `c` to the wrapped counter sequence
starting at `(c + 1) % W` yields the wrapped counter sequence starting at
`c`. -/
theorem mod_seq_cons (c : Nat) (hc : c < W) (n : Nat) :
    c :: (List.range n).map (fun i => ((c + 1) % W + i) % W) =
      (List.range (n + 1)).map (fun i => (c + i) % W) := by
  rw [List.range_succ_eq_map, List.map_cons, List.map_map]
  refine List.cons_eq_cons.mpr ⟨?_, ?_⟩
  · simpa using (Nat.mod_eq_of_lt hc).symm
  · refine List.map_congr_left ?_
    intro i _
    simp only [Function.comp_apply, Nat.mod_add_mod, Nat.succ_eq_add_one]
    ring_nf

/-- Case analysis of one step: either no id is emitted and the counter is
unchanged, or the step is a successful grant, which emits the current counter
value and advances the counter by one, wrapping at `2^64`. -/
theorem stepOp_counter (s : SysState) (op : Op) :
    ((stepOp s op).2 = none ∧ (stepOp s op).1.counter = s.counter) ∨
    ((stepOp s op).2 = some s.counter ∧ (stepOp s op).1.counter = (s.counter + 1) % W) := by
  cases op with
  | grantOp i p d t =>
    cases hg : s.guards[i]? with
    | none => left; simp [stepOp, hg]
    | some j =>
      cases j with
      | Domestic => right; simp [stepOp, hg, grant_lease]
      | Foreign h l e x => left; simp [stepOp, hg, grant_lease]
  | reclaimOp i t =>
    cases hg : s.guards[i]? with
    | none => left; simp [stepOp, hg]
    | some j => left; simp [stepOp, hg]
  | accessOp i t => left; simp [stepOp]

/-- The ids granted along any trace are consecutive values of the wrapped
counter, starting at the initial counter value. -/
theorem granted_ids_eq (ops : List Op) :
    ∀ s : SysState, s.counter < W →
      granted_ids s ops =
        (List.range (granted_ids s ops).length).map (fun i => (s.counter + i) % W) := by
  induction ops with
  | nil => intro s _; simp [granted_ids]
  | cons op ops ih =>
    intro s hs
    rcases stepOp_counter s op with ⟨hem, hc⟩ | ⟨hem, hc⟩
    · have := ih (stepOp s op).1 (by rw [hc]; exact hs)
      rw [hc] at this
      simpa [granted_ids, hem] using this
    · have htail := ih (stepOp s op).1
        (by rw [hc]; exact Nat.mod_lt _ W_pos)
      rw [hc] at htail
      have hgoal := mod_seq_cons s.counter hs (granted_ids (stepOp s op).1 ops).length
      rw [← htail] at hgoal
      simpa [granted_ids, hem] using hgoal

/-- The trace `pump k` performs exactly `k` successful grants and returns the
wrapped counter values `c, c+1, ...` in order. -/
theorem granted_ids_pump :
    ∀ (k : Nat) (c : Nat), c < W →
      granted_ids ⟨c, [Jurisdiction.Domestic]⟩ (pump k) =
        (List.range k).map (fun i => (c + i) % W) := by
  intro k
  induction k with
  | zero => intro c _; simp [pump, granted_ids]
  | succ k ih =>
    intro c hc
    have hstep : granted_ids ⟨c, [Jurisdiction.Domestic]⟩ (pump (k + 1)) =
        c :: granted_ids ⟨(c + 1) % W, [Jurisdiction.Domestic]⟩ (pump k) := by
      simp [pump, granted_ids, stepOp, grant_lease, reclaim]
    rw [hstep, ih ((c + 1) % W) (Nat.mod_lt _ W_pos)]
    exact mod_seq_cons c hc k

/-! ### Wait-For Graph / deadlock detector

Modelled from the spec: the `WaitForGraph` of the `praborrow-lease` crate is
not present under `src/` (only its caller, `examples/distributed_bank.rs`,
which uses `WaitForGraph::new`, `add_wait(from, to)` and
`detect_cycle() -> bool`).  Per the spec: the graph maps a node id to the set
of node ids it waits on (one shared id space for holders and resources);
`add_wait` inserts a directed edge idempotently; `remove_wait` removes it if
present; `detect_cycle` is a pure query returning `true` iff the currently
materialized graph contains at least one directed cycle, computed by a
deterministic traversal with visited-set bookkeeping.  The traversal is
modelled here as a monotone reachability saturation bounded by the node count,
which decides exactly the cycle-existence contract the spec states for the
DFS. -/

/-- Modelled from the spec: the wait-for graph, a set of directed wait edges
kept in insertion order (deterministic traversal order). -/
structure WaitForGraph where
  edges : List (Nat × Nat)
deriving DecidableEq

namespace WaitForGraph

/-- Modelled from the spec: `new()` — the empty graph. -/
def new : WaitForGraph := ⟨[]⟩

/-- Modelled from the spec: `add_wait(from, to)` inserts the directed edge
`from -> to`; re-adding an existing edge is a no-op, not a duplicate. -/
def add_wait (g : WaitForGraph) (a b : Nat) : WaitForGraph :=
  if (a, b) ∈ g.edges then g else ⟨g.edges ++ [(a, b)]⟩

/-- Modelled from the spec: `remove_wait(from, to)` removes the edge if
present; no-op otherwise. -/
def remove_wait (g : WaitForGraph) (a b : Nat) : WaitForGraph :=
  ⟨g.edges.filter (fun e => e ≠ (a, b))⟩

/-- The nodes of the graph: every endpoint of an edge. -/
def nodes (g : WaitForGraph) : Finset Nat :=
  (g.edges.map Prod.fst).toFinset ∪ (g.edges.map Prod.snd).toFinset

/-- The direct successors of `n`: the nodes `n` waits on. -/
def succs (g : WaitForGraph) (n : Nat) : Finset Nat :=
  ((g.edges.filter (fun e => e.1 = n)).map Prod.snd).toFinset

/-- The edge relation of the graph. -/
def edgeRel (g : WaitForGraph) (a b : Nat) : Prop := (a, b) ∈ g.edges

/-- One saturation step: add all direct successors of the current set. -/
def stepSet (g : WaitForGraph) (s : Finset Nat) : Finset Nat :=
  s ∪ s.biUnion (succs g)

/-- Bounded saturation of a node set under the successor relation. -/
def saturate (g : WaitForGraph) : Nat → Finset Nat → Finset Nat
  | 0, s => s
  | fuel + 1, s => if stepSet g s = s then s else saturate g fuel (stepSet g s)

/-- All nodes reachable from the set `s` (in zero or more steps), computed by
saturating for `|nodes| + 1` rounds, which always suffices. -/
def reach (g : WaitForGraph) (s : Finset Nat) : Finset Nat :=
  saturate g ((nodes g).card + 1) s

/-- Modelled from the spec: `detect_cycle()` returns `true` iff some node can
reach itself through at least one wait edge — i.e. iff the materialized graph
contains a directed cycle.  It is a pure query: it takes the graph and
returns a `Bool`, leaving the graph unchanged, and it is total (an empty or
trivial graph simply yields `false`). -/
def detect_cycle (g : WaitForGraph) : Bool :=
  decide (∃ n ∈ nodes g, n ∈ reach g (succs g n))

/-- A directed cycle exists: some node reaches itself by a nonempty chain of
wait edges. -/
def HasCycle (g : WaitForGraph) : Prop :=
  ∃ n, Relation.TransGen (edgeRel g) n n

theorem mem_succs {g : WaitForGraph} {n m : Nat} :
    m ∈ succs g n ↔ (n, m) ∈ g.edges := by
  simp only [succs, List.mem_toFinset, List.mem_map, List.mem_filter]
  constructor
  · rintro ⟨⟨a, b⟩, ⟨hmem, ha⟩, hb⟩
    simp at ha hb
    rwa [← ha, ← hb]
  · intro h
    exact ⟨(n, m), ⟨h, by simp⟩, rfl⟩

theorem edge_fst_mem_nodes {g : WaitForGraph} {a b : Nat}
    (h : (a, b) ∈ g.edges) : a ∈ nodes g := by
  simp only [nodes, Finset.mem_union, List.mem_toFinset, List.mem_map]
  exact Or.inl ⟨(a, b), h, rfl⟩

theorem edge_snd_mem_nodes {g : WaitForGraph} {a b : Nat}
    (h : (a, b) ∈ g.edges) : b ∈ nodes g := by
  simp only [nodes, Finset.mem_union, List.mem_toFinset, List.mem_map]
  exact Or.inr ⟨(a, b), h, rfl⟩

theorem succs_subset_nodes (g : WaitForGraph) (n : Nat) :
    succs g n ⊆ nodes g := by
  intro m hm
  exact edge_snd_mem_nodes (mem_succs.mp hm)

theorem subset_stepSet (g : WaitForGraph) (s : Finset Nat) : s ⊆ stepSet g s :=
  Finset.subset_union_left

theorem stepSet_subset_nodes {g : WaitForGraph} {s : Finset Nat}
    (hs : s ⊆ nodes g) : stepSet g s ⊆ nodes g := by
  intro m hm
  rcases Finset.mem_union.mp hm with h | h
  · exact hs h
  · rcases Finset.mem_biUnion.mp h with ⟨a, _, hma⟩
    exact succs_subset_nodes g a hma

theorem subset_saturate (g : WaitForGraph) :
    ∀ (fuel : Nat) (s : Finset Nat), s ⊆ saturate g fuel s := by
  intro fuel
  induction fuel with
  | zero => intro s; exact le_refl s
  | succ fuel ih =>
    intro s
    by_cases h : stepSet g s = s
    · simp [saturate, h]
    · simp only [saturate, h, if_false]
      exact (subset_stepSet g s).trans (ih (stepSet g s))

theorem saturate_subset_nodes (g : WaitForGraph) :
    ∀ (fuel : Nat) (s : Finset Nat), s ⊆ nodes g → saturate g fuel s ⊆ nodes g := by
  intro fuel
  induction fuel with
  | zero => intro s hs; exact hs
  | succ fuel ih =>
    intro s hs
    by_cases h : stepSet g s = s
    · simpa [saturate, h] using hs
    · simp only [saturate, h, if_false]
      exact ih (stepSet g s) (stepSet_subset_nodes hs)

/-- With enough fuel the saturation reaches a fixed point of `stepSet`. -/
theorem saturate_fixed (g : WaitForGraph) :
    ∀ (fuel : Nat) (s : Finset Nat), s ⊆ nodes g →
      (nodes g).card + 1 - s.card ≤ fuel →
      stepSet g (saturate g fuel s) = saturate g fuel s := by
  intro fuel
  induction fuel with
  | zero =>
    intro s hs hcard
    have := Finset.card_le_card hs
    omega
  | succ fuel ih =>
    intro s hs hcard
    by_cases h : stepSet g s = s
    · simp [saturate, h]
    · simp only [saturate, h, if_false]
      have hss : s ⊂ stepSet g s :=
        HasSubset.Subset.ssubset_of_ne (subset_stepSet g s) (fun he => h he.symm)
      have hlt : s.card < (stepSet g s).card := Finset.card_lt_card hss
      have hsub : stepSet g s ⊆ nodes g := stepSet_subset_nodes hs
      exact ih (stepSet g s) hsub (by have := Finset.card_le_card hsub; omega)

/-- Soundness of saturation: everything in the saturated set is reachable (in
zero or more wait-edge steps) from some element of the starting set. -/
theorem saturate_sound (g : WaitForGraph) :
    ∀ (fuel : Nat) (s : Finset Nat) (x : Nat), x ∈ saturate g fuel s →
      ∃ a ∈ s, Relation.ReflTransGen (edgeRel g) a x := by
  intro fuel
  induction fuel with
  | zero => intro s x hx; exact ⟨x, hx, Relation.ReflTransGen.refl⟩
  | succ fuel ih =>
    intro s x hx
    by_cases h : stepSet g s = s
    · rw [saturate, if_pos h] at hx
      exact ⟨x, hx, Relation.ReflTransGen.refl⟩
    · rw [saturate, if_neg h] at hx
      rcases ih (stepSet g s) x hx with ⟨a, ha, hax⟩
      rcases Finset.mem_union.mp ha with ha' | ha'
      · exact ⟨a, ha', hax⟩
      · rcases Finset.mem_biUnion.mp ha' with ⟨b, hb, hba⟩
        exact ⟨b, hb, Relation.ReflTransGen.head (mem_succs.mp hba) hax⟩

/-- Completeness of saturation: the saturated set contains every node
reachable from the starting set. -/
theorem reach_complete {g : WaitForGraph} {s : Finset Nat} (hs : s ⊆ nodes g)
    {a b : Nat} (ha : a ∈ s) (hab : Relation.ReflTransGen (edgeRel g) a b) :
    b ∈ reach g s := by
  induction hab with
  | refl => exact subset_saturate g _ s ha
  | tail hxy hyz ihx =>
    rename_i y z
    have hfix : stepSet g (reach g s) = reach g s :=
      saturate_fixed g _ s hs (by omega)
    have : z ∈ stepSet g (reach g s) := by
      apply Finset.mem_union.mpr
      exact Or.inr (Finset.mem_biUnion.mpr ⟨y, ihx, mem_succs.mpr hyz⟩)
    rwa [hfix] at this

/-- `detect_cycle` decides exactly the existence of a directed cycle. -/
theorem detect_cycle_correct (g : WaitForGraph) :
    detect_cycle g = true ↔ HasCycle g := by
  rw [detect_cycle, decide_eq_true_iff]
  constructor
  · rintro ⟨n, _, hreach⟩
    rcases saturate_sound g _ _ n hreach with ⟨a, ha, han⟩
    exact ⟨n, Relation.TransGen.head' (mem_succs.mp ha) han⟩
  · rintro ⟨n, htg⟩
    rcases (Relation.TransGen.head'_iff).mp htg with ⟨m, hnm, hmn⟩
    refine ⟨n, edge_fst_mem_nodes hnm, ?_⟩
    exact reach_complete (succs_subset_nodes g n) (mem_succs.mpr hnm) hmn

end WaitForGraph

/-! ### Claim theorems -/

/-- C1: for every guard whose jurisdiction is `Foreign` with
`now < expires_at`, a read or write attempt does not yield the value: it fails
with the sovereignty violation carrying the lease's holder and expiry instant
(the data interpolated into the source's panic message), and the guard state
is unchanged; for every guard whose jurisdiction is `Domestic`, read and write
succeed. -/
theorem access_requires_domestic {α : Type} (v v' : α) (now h l e x : Nat) :
    (now < x →
      read_full ⟨v, .Foreign h l e x⟩ now =
        (.error (.SovereigntyViolation h x), ⟨v, .Foreign h l e x⟩) ∧
      write_full ⟨v, .Foreign h l e x⟩ now v' =
        (.error (.SovereigntyViolation h x), ⟨v, .Foreign h l e x⟩)) ∧
    read_full ⟨v, .Domestic⟩ now = (.ok v, ⟨v, .Domestic⟩) ∧
    write_full ⟨v, .Domestic⟩ now v' = (.ok (), ⟨v', .Domestic⟩) := by
  constructor
  · intro hlt
    constructor <;> simp [read_full, write_full, ensure_domestic, hlt]
  · constructor <;> simp [read_full, write_full, ensure_domestic]

/-- C1 witness: concrete unexpired foreign guard refuses a read with the
holder and expiry in the error; a domestic guard serves the value. -/
theorem access_requires_domestic_witness :
    read_full (⟨10, .Foreign 7 0 1 5⟩ : SovereignS Nat) 3 =
      (.error (.SovereigntyViolation 7 5), ⟨10, .Foreign 7 0 1 5⟩) ∧
    read_full (⟨10, .Domestic⟩ : SovereignS Nat) 3 = (.ok 10, ⟨10, .Domestic⟩) := by
  have hthm := access_requires_domestic (α := Nat) 10 11 3 7 0 1 5
  exact ⟨(hthm.1 (by decide)).1, hthm.2.1⟩

/-- C2 counterexample: the failure raised on access to an expired-unreclaimed
lease does not carry the holder id — two guards differing only in the holder
produce the very same error value (the source's panic message `"SOVEREIGNTY
VIOLATION: Resource lease expired but not reclaimed."` interpolates nothing),
contradicting the claim that the failure carries `holder_id`. -/
theorem expired_error_carries_no_holder :
    (read_full (⟨0, .Foreign 7 0 1 5⟩ : SovereignS Nat) 9).1 =
      (read_full (⟨0, .Foreign 8 0 1 5⟩ : SovereignS Nat) 9).1 ∧
    (read_full (⟨0, .Foreign 7 0 1 5⟩ : SovereignS Nat) 9).1 =
      .error .LeaseExpiredUnreclaimed ∧
    (7 : Nat) ≠ 8 :=
  ⟨rfl, rfl, by decide⟩

/-- C2 amended: for every guard whose jurisdiction is `Foreign` with
`now >= expires_at`, a read or write attempt fails with the (payload-free)
`LeaseExpiredUnreclaimed` error; access is never silently granted merely
because the timer elapsed — after an explicit `reclaim` the read succeeds. -/
theorem expired_access_fails_until_reclaim {α : Type} (v v' : α)
    (now h l e x : Nat) (hx : x ≤ now) :
    (read_full ⟨v, .Foreign h l e x⟩ now).1 = .error .LeaseExpiredUnreclaimed ∧
    (write_full ⟨v, .Foreign h l e x⟩ now v').1 = .error .LeaseExpiredUnreclaimed ∧
    read_full ⟨v, reclaim (.Foreign h l e x) now⟩ now = (.ok v, ⟨v, .Domestic⟩) := by
  have hnlt : ¬ now < x := not_lt.mpr hx
  refine ⟨?_, ?_, ?_⟩ <;>
    simp [read_full, write_full, ensure_domestic, reclaim, hnlt, hx]

/-- C2 witness: a concrete expired lease refuses reads until reclaimed, then
serves the value. -/
theorem expired_access_fails_until_reclaim_witness :
    (read_full (⟨10, .Foreign 7 0 1 5⟩ : SovereignS Nat) 9).1 =
      .error .LeaseExpiredUnreclaimed ∧
    read_full (⟨10, reclaim (.Foreign 7 0 1 5) 9⟩ : SovereignS Nat) 9 =
      (.ok 10, ⟨10, .Domestic⟩) := by
  have hthm := expired_access_fails_until_reclaim (α := Nat) 10 11 9 7 0 1 5 (by decide)
  exact ⟨hthm.1, hthm.2.2⟩

/-- C3: the code evaluated at the failing input.  Two consecutive successful
grants on one guard (grant with duration `0` at clock `5`, reclaim at `5`,
grant again) both return epoch `1` — the source's
`let epoch = Epoch(1); // Placeholder for clock` — whereas the claim requires
the second epoch to be the previous epoch plus one. -/
theorem second_grant_epoch_not_incremented :
    grant_lease .Domestic 0 1 0 5 = (.ok (0, 1), .Foreign 1 0 1 5, 1) ∧
    reclaim (.Foreign 1 0 1 5) 5 = .Domestic ∧
    grant_lease .Domestic 1 2 7 5 = (.ok (1, 1), .Foreign 2 1 1 12, 2) ∧
    ¬ (1 = 1 + 1) :=
  ⟨rfl, rfl, rfl, by decide⟩

/-- C4 counterexample: a reclaim attempted while the lease is unexpired does
not fail — the source's `reclaim` returns `()` and silently leaves the
jurisdiction unchanged (its unexpired branch is the comment
`// Cannot reclaim yet`), whereas the claim (and `reclaim_spec`, written from
the spec's words) requires the call to fail with `NotYetExpired`. -/
theorem unexpired_reclaim_silently_noops :
    reclaim (.Foreign 7 0 1 10) 3 = .Foreign 7 0 1 10 ∧
    reclaim_spec (.Foreign 7 0 1 10) 3 = .error .NotYetExpired :=
  ⟨rfl, rfl⟩

/-- C4 amended: `reclaim` transitions `Foreign -> Domestic` iff
`now >= expires_at`; a reclaim attempted while the lease is unexpired silently
leaves the jurisdiction unchanged and reports no error (the source's `reclaim`
returns unit and cannot fail); reclaim on an already-`Domestic` guard is an
idempotent no-op. -/
theorem reclaim_transitions_iff_expired (h l e x now : Nat) :
    (reclaim (.Foreign h l e x) now = .Domestic ↔ x ≤ now) ∧
    (¬ x ≤ now → reclaim (.Foreign h l e x) now = .Foreign h l e x) ∧
    reclaim .Domestic now = .Domestic ∧
    reclaim (reclaim .Domestic now) now = .Domestic := by
  refine ⟨?_, ?_, rfl, rfl⟩
  · by_cases hx : x ≤ now <;> simp [reclaim, hx]
  · intro hx
    simp [reclaim, hx]

/-- C4 witness: a concrete expired lease is reclaimed; a concrete unexpired
one is left untouched. -/
theorem reclaim_transitions_iff_expired_witness :
    reclaim (.Foreign 7 0 1 10) 12 = .Domestic ∧
    reclaim (.Foreign 7 0 1 10) 3 = .Foreign 7 0 1 10 := by
  have h12 := reclaim_transitions_iff_expired 7 0 1 10 12
  have h3 := reclaim_transitions_iff_expired 7 0 1 10 3
  exact ⟨h12.1.mpr (by decide), h3.2.1 (by decide)⟩

/-- C5: for every guard in `Foreign` jurisdiction, `grant_lease` always fails
(with the error the lease authority maps to `AlreadyLeased`) and leaves the
jurisdiction — holder, lease id, epoch and expiry — and the id counter exactly
unchanged; `try_hire` surfaces the failure as `LeaseError::AlreadyLeased`. -/
theorem grant_on_foreign_fails_unchanged (h l e x c p d t : Nat) :
    grant_lease (.Foreign h l e x) c p d t =
      (.error "Resource already leased", .Foreign h l e x, c) ∧
    try_hire (.Foreign h l e x) c p d t =
      (.error .AlreadyLeased, .Foreign h l e x, c) :=
  ⟨rfl, rfl⟩

/-- C6: the code evaluated at the failing input.  The epoch returned by every
successful grant is the constant `1` (the source's placeholder), so for two
consecutive successful grants on the same guard the second epoch equals `1`,
not the first epoch plus one: the epoch sequence is constant, not strictly
increasing. -/
theorem epoch_constant_across_grants :
    (grant_lease .Domestic 0 3 0 9).1 = .ok (0, 1) ∧
    reclaim (.Foreign 3 0 1 9) 9 = .Domestic ∧
    (grant_lease .Domestic 1 4 2 9).1 = .ok (1, 1) ∧
    ¬ (1 = 1 + 1) :=
  ⟨rfl, rfl, rfl, by decide⟩

/-- C7: `detect_cycle` returns `true` iff the currently materialized wait-for
graph contains at least one directed cycle, and on the empty graph it returns
`false`.  It is a total pure function of the graph (it never fails and, being
a query `WaitForGraph → Bool`, leaves the graph unchanged by construction). -/
theorem detect_cycle_iff_has_cycle (g : WaitForGraph) :
    (WaitForGraph.detect_cycle g = true ↔ WaitForGraph.HasCycle g) ∧
    WaitForGraph.detect_cycle WaitForGraph.new = false :=
  ⟨WaitForGraph.detect_cycle_correct g, by decide⟩

/-- C7 witness: the spec's deadlock example — after adding the wait edges
`(1,200), (200,2), (2,100), (100,1)` the detector reports a cycle, and by the
main theorem the graph indeed has one; the empty graph reports none. -/
theorem detect_cycle_iff_has_cycle_witness :
    WaitForGraph.detect_cycle
      (WaitForGraph.add_wait (WaitForGraph.add_wait (WaitForGraph.add_wait
        (WaitForGraph.add_wait WaitForGraph.new 1 200) 200 2) 2 100) 100 1) = true ∧
    WaitForGraph.HasCycle
      (WaitForGraph.add_wait (WaitForGraph.add_wait (WaitForGraph.add_wait
        (WaitForGraph.add_wait WaitForGraph.new 1 200) 200 2) 2 100) 100 1) ∧
    WaitForGraph.detect_cycle WaitForGraph.new = false := by
  refine ⟨by decide, ?_, (detect_cycle_iff_has_cycle WaitForGraph.new).2⟩
  exact (detect_cycle_iff_has_cycle _).1.mp (by decide)

/-- C8 counterexample: the id source is the wrapping 64-bit counter of
`uuid_pseudo`, so lease ids are reused after `2^64` successful grants: in the
trace of `2^64 + 1` grant/reclaim pairs, the first grant (position `0`) and
the `2^64`-th grant (position `W`) both return lease id `0`, although they are
distinct successful grants. -/
theorem lease_id_reused_after_wrap :
    (granted_ids ⟨0, [Jurisdiction.Domestic]⟩ (pump (W + 1)))[0]? = some 0 ∧
    (granted_ids ⟨0, [Jurisdiction.Domestic]⟩ (pump (W + 1)))[W]? = some 0 ∧
    W ≠ 0 := by
  have h := granted_ids_pump (W + 1) 0 W_pos
  refine ⟨?_, ?_, by norm_num [W]⟩
  · rw [h, List.getElem?_map, List.getElem?_range (by omega)]
    simp
  · rw [h, List.getElem?_map, List.getElem?_range (by omega)]
    simp [Nat.mod_self]

/-- C8 amended: along any operation trace from process start (counter `0`,
any collection of guards), as long as at most `2^64` grants succeed, all
returned lease ids are pairwise distinct — on the same guard or on different
guards. -/
theorem granted_ids_nodup_within_bound (gs : List Jurisdiction) (ops : List Op)
    (hlen : (granted_ids ⟨0, gs⟩ ops).length ≤ W) :
    (granted_ids ⟨0, gs⟩ ops).Nodup := by
  have heq := granted_ids_eq ops ⟨0, gs⟩ W_pos
  have hc0 : (⟨0, gs⟩ : SysState).counter = 0 := rfl
  rw [hc0] at heq
  rw [heq]
  refine List.Nodup.map_on ?_ (List.nodup_range _)
  intro i hi j hj hij
  rw [List.mem_range] at hi hj
  have hi' : i < W := lt_of_lt_of_le hi hlen
  have hj' : j < W := lt_of_lt_of_le hj hlen
  rw [Nat.zero_add, Nat.zero_add, Nat.mod_eq_of_lt hi', Nat.mod_eq_of_lt hj'] at hij
  exact hij

/-- C8 witness: a concrete three-operation trace with two successful grants
yields distinct lease ids. -/
theorem granted_ids_nodup_within_bound_witness :
    (granted_ids ⟨0, [Jurisdiction.Domestic]⟩
      [Op.grantOp 0 1 0 5, Op.reclaimOp 0 5, Op.grantOp 0 2 0 5]).Nodup :=
  granted_ids_nodup_within_bound [Jurisdiction.Domestic]
    [Op.grantOp 0 1 0 5, Op.reclaimOp 0 5, Op.grantOp 0 2 0 5] (by decide)

/-- C9 counterexample: the success arm of `try_hire` binds the epoch as
`_epoch` and drops it — the `Lease` struct has no epoch field — so two grant
results that differ only in the epoch mint the very same `Lease` value: the
returned `Lease` does not wrap the epoch produced by `grant_lease`. -/
theorem mint_discards_epoch :
    mintLease 0 0 9 5 = mintLease 0 1 9 5 ∧ (0 : Nat) ≠ 1 :=
  ⟨rfl, by decide⟩

/-- C9 amended: `try_hire` succeeds exactly when the underlying `grant_lease`
succeeds; on success it returns a `Lease` wrapping the id produced by
`grant_lease` together with `holder = peer_id` and the requested duration (the
epoch is discarded — the `Lease` type has no epoch field); on failure the
error surfaces as `AlreadyLeased`, and the guard state and counter are passed
through from `grant_lease` unchanged. -/
theorem try_hire_wraps_grant (c p d t : Nat) :
    try_hire .Domestic c p d t =
      (.ok ⟨c, p, d⟩, .Foreign p c 1 (t + d), (c + 1) % W) ∧
    (∀ h l e x, try_hire (.Foreign h l e x) c p d t =
      (.error .AlreadyLeased, .Foreign h l e x, c)) ∧
    (∀ j, ((try_hire j c p d t).1.isOk = (grant_lease j c p d t).1.isOk) ∧
      (try_hire j c p d t).2 = (grant_lease j c p d t).2) := by
  refine ⟨rfl, fun h l e x => rfl, fun j => ?_⟩
  cases j <;> exact ⟨rfl, rfl⟩

/-- C10: a read or write attempt — successful or failed — never modifies the
jurisdiction metadata (in particular any number of access attempts on an
expired `Foreign` lease leaves it `Foreign`), and the only jurisdiction
transitions are `grant_lease`'s `Domestic -> Foreign` and `reclaim`'s
`Foreign -> Domestic`. -/
theorem access_preserves_jurisdiction {α : Type} (s : SovereignS α)
    (now n : Nat) (v : α) :
    (read_full s now).2 = s ∧
    (write_full s now v).2.meta = s.meta ∧
    (fun st => (read_full st now).2)^[n] s = s ∧
    (∀ j c p d t, (grant_lease j c p d t).2.1 ≠ j →
      j = .Domestic ∧ (grant_lease j c p d t).2.1 = .Foreign p c 1 (t + d)) ∧
    (∀ j t, reclaim j t ≠ j →
      reclaim j t = .Domestic ∧ ∃ h l e x, j = .Foreign h l e x ∧ x ≤ t) := by
  have hread : ∀ st : SovereignS α, (read_full st now).2 = st := by
    intro st
    cases h : ensure_domestic st.meta now <;> simp [read_full, h]
  refine ⟨hread s, ?_, ?_, ?_, ?_⟩
  · cases h : ensure_domestic s.meta now <;> simp [write_full, h]
  · exact Function.iterate_fixed (hread s) n
  · intro j c p d t hne
    cases j with
    | Domestic => exact ⟨rfl, rfl⟩
    | Foreign h l e x => exact absurd rfl hne
  · intro j t hne
    cases j with
    | Domestic => exact absurd rfl hne
    | Foreign h l e x =>
      by_cases hx : x ≤ t
      · exact ⟨by simp [reclaim, hx], h, l, e, x, rfl, hx⟩
      · refine absurd ?_ hne
        simp [reclaim, hx]

/-- C10 witness: concrete instances — repeated reads leave an expired foreign
guard exactly as it was; a grant from domestic moves to foreign; a reclaim of
an expired lease moves to domestic. -/
theorem access_preserves_jurisdiction_witness :
    (read_full (⟨10, .Foreign 7 0 1 5⟩ : SovereignS Nat) 99).2 =
      ⟨10, .Foreign 7 0 1 5⟩ ∧
    (fun st => (read_full st 99).2)^[3] (⟨10, .Foreign 7 0 1 5⟩ : SovereignS Nat) =
      ⟨10, .Foreign 7 0 1 5⟩ ∧
    (grant_lease .Domestic 0 2 4 6).2.1 = .Foreign 2 0 1 10 ∧
    reclaim (.Foreign 7 0 1 5) 9 = .Domestic := by
  have hthm := access_preserves_jurisdiction (α := Nat) ⟨10, .Foreign 7 0 1 5⟩ 99 3 0
  refine ⟨hthm.1, hthm.2.2.1, ?_, ?_⟩
  · exact (hthm.2.2.2.1 .Domestic 0 2 4 6 (by decide)).2
  · exact (hthm.2.2.2.2 (.Foreign 7 0 1 5) 9 (by decide)).1

end PraBorrow
